import Mathlib

/-!
Verification of the euscan upstream-scan core (`pym/euscan/scan.py`).

The development shallowly embeds the module's three functions —
`filter_versions`, `scan_upstream_urls` and `scan_upstream` — as executable
Lean definitions.  External collaborators (the handler registry, the query
service, `portage.pkgsplit`, the URI-map parser, the blacklists, the clock)
are parameters collected in an `Env` record; uncaught Python exceptions are
modelled as `Except.error`, and observable side effects (progress-callback
increments, emitted metadata, handler invocations, warnings) are recorded in
the returned outcome records.  Integer arithmetic follows Python 2: `70 /
num_urls` on ints is floor division, so it is `Nat` division here, and the
division by zero that Python would raise is an explicit error case.
-/

namespace Euscan

/-- A raw candidate finding, the Python tuple `(url, version, handler,
confidence)` produced by `handlers.scan` / `handlers.brute_force`. -/
structure Finding where
  url : String
  version : String
  handler : String
  confidence : Nat
deriving DecidableEq, Repr

/-- One entry of the final scan result: the Python tuple
`(cp, url, version, handler, confidence)`. -/
abbrev ResultEntry := String × String × String × String × Nat

/-- The value type of the Python dict literal stored in `filtered[version]`:
a string or a number. -/
inductive PyVal where
  | str (s : String)
  | num (n : Nat)
deriving DecidableEq, Repr

/-- The Python dict `{"url": url, "handler": handler, "confidence":
confidence}` built at `scan.py:32-36`, embedded as an association list so
that `len(...)` on it is its number of entries (which is always 3). -/
def mkEntry (url handler : String) (confidence : Nat) : List (String × PyVal) :=
  [("url", PyVal.str url), ("handler", PyVal.str handler),
   ("confidence", PyVal.num confidence)]

/-- Association-list lookup, the embedding of Python dict indexing and of the
`key in dict` test (`lookupA m k ≠ none`). -/
def lookupA {α : Type} : List (String × α) → String → Option α
  | [], _ => none
  | (k, v) :: rest, key => if k = key then some v else lookupA rest key

/-- Association-list update, the embedding of Python dict assignment
`d[key] = v`: replace the binding if the key is present, else append. -/
def insertA {α : Type} : List (String × α) → String → α → List (String × α)
  | [], key, v => [(key, v)]
  | (k, w) :: rest, key, v =>
      if k = key then (k, v) :: rest else (k, w) :: insertA rest key v

/-- The keys of an association list. -/
def keysA {α : Type} (m : List (String × α)) : List String :=
  m.map Prod.fst

/-- Python `d["url"]` on a stored entry. -/
def entryUrl (e : List (String × PyVal)) : String :=
  match lookupA e "url" with
  | some (PyVal.str s) => s
  | _ => ""

/-- Python `d["handler"]` on a stored entry. -/
def entryHandler (e : List (String × PyVal)) : String :=
  match lookupA e "handler" with
  | some (PyVal.str s) => s
  | _ => ""

/-- Python `d["confidence"]` on a stored entry. -/
def entryConf (e : List (String × PyVal)) : Nat :=
  match lookupA e "confidence" with
  | some (PyVal.num n) => n
  | _ => 0

/-- One iteration of the loop body of `filter_versions` (`scan.py:22-36`).
Note that the guard at `scan.py:25` is `len(url) < len(filtered[version])`,
where `filtered[version]` is the stored three-entry dict, so `len` of it is
3, not the length of the stored URL. -/
def filterStep (version_blacklisted : String → String → Bool) (cp : String)
    (filtered : List (String × List (String × PyVal))) (f : Finding) :
    List (String × List (String × PyVal)) :=
  let skip : Bool :=
    match lookupA filtered f.version with
    | some entry => decide (f.url.length < entry.length)
    | none => false
  if skip then filtered
  else if version_blacklisted cp f.version then filtered
  else insertA filtered f.version (mkEntry f.url f.handler f.confidence)

/-- `filter_versions` (`scan.py:19-42`): fold the findings through
`filterStep`, then project each surviving dict entry back to a result
tuple.  The Python 2 dict is embedded as an insertion-ordered association
list. -/
def filter_versions (version_blacklisted : String → String → Bool)
    (cp : String) (versions : List Finding) : List ResultEntry :=
  let filtered := versions.foldl (filterStep version_blacklisted cp) []
  filtered.map (fun p => (cp, entryUrl p.2, p.1, entryHandler p.2, entryConf p.2))

/-- Python substring containment `pat in s` on character lists
(`'://' in url` at `scan.py:63`, `'9999' in pkg.version` at `scan.py:140`). -/
def containsSub (pat : List Char) : List Char → Bool
  | [] => pat.isEmpty
  | c :: rest => pat.isPrefixOf (c :: rest) || containsSub pat rest

/-- Python `pat in s` on strings. -/
def strContainsSub (s pat : String) : Bool :=
  containsSub pat.data s.data

/-- The record of one resolved package, abstracting the gentoolkit
`Package` object consumed by `scan_upstream` (its fields `cp`, `cpv`,
`version`, `repo_name()`, `ebuild_path()`, and the `environment` values
used for display metadata). -/
structure Pkg where
  cp : String
  cpv : String
  version : String
  repoName : String
  ebuildPath : Option String
  homepage : String
  description : String
deriving DecidableEq, Repr

/-- The truthiness of a gentoolkit `Package` object under Python `not`:
an ordinary object is always truthy, so `not pkg` at `scan.py:143` is
always `False` (the dev-only warning there is dead code). -/
def pyNot (_ : Pkg) : Bool := false

/-- The configuration options read from `CONFIG` by `scan.py`. -/
structure Config where
  quiet : Bool
  format : Bool
  oneshot : Bool
  scanDir : Bool
  bruteForce : Nat
deriving DecidableEq, Repr

/-- The external collaborators of the scan core: the handler registry
(`handlers.scan` / `handlers.brute_force`, each may raise, modelled with
`Except`), `helpers.version_blacklisted`, `portage.pkgsplit` (returns
`None` on a malformed cpv), the query-resolution service (covering both the
ebuild-path branch and the name-query branch of `scan.py:120-129`), the
sort order on packages, `BLACKLIST_PACKAGES`, the two `_parse_uri_map`
expansions of `SRC_URI` (raising is an `Except.error`), the `mirror`
feature flag, and the clock values emitted as metadata. -/
structure Env where
  config : Config
  scanH : String → String → Except String (List Finding)
  bruteH : String → String → Except String (List Finding)
  version_blacklisted : String → String → Bool
  pkgsplitFn : String → Option (String × String × String)
  resolve : String → List Pkg
  pkgLe : Pkg → Pkg → Bool
  blacklistPackages : List String
  alist : Pkg → Except String (List (String × List String))
  aalist : Pkg → Except String (List (String × List String))
  mirrorFeature : Bool
  now : String
  scanTime : String

/-- An uncaught Python exception escaping the embedded code:
`ZeroDivisionError` from `70 / num_urls` at `scan.py:50`, the `TypeError`
from unpacking `pkgsplit`'s `None` at `scan.py:85`, the `IndexError` from
`matches.pop()` on an empty list, or an exception raised by
`handlers.brute_force` at `scan.py:80`, which no `try` block covers. -/
inductive ScanErr where
  | zeroDivision
  | pkgsplitFailed
  | popEmptyList
  | bruteRaised (msg : String)
deriving DecidableEq, Repr

/-- The mutable state of the dispatch loop of `scan_upstream_urls`:
the accumulated `versions` list, the remaining progress budget
`progress_available`, and the observable traces (progress increments
reported, URLs passed to `handlers.scan` and to `handlers.brute_force`,
warnings emitted). -/
structure LoopState where
  versions : List Finding
  available : Nat
  incs : List Nat
  scanCalls : List String
  bruteCalls : List String
  warns : List String
deriving DecidableEq, Repr

/-- The initial state of the dispatch loop (`scan.py:46-48`). -/
def initState : LoopState :=
  { versions := [], available := 70, incs := [], scanCalls := [],
    bruteCalls := [], warns := [] }

/-- The progress report at the top of the loop body (`scan.py:55-57`):
`if on_progress and progress_available > 0`, report one increment and
subtract it from the budget. -/
def reportProgress (onProg : Bool) (inc : Nat) (st : LoopState) : LoopState :=
  if onProg && decide (0 < st.available) then
    { st with incs := st.incs ++ [inc], available := st.available - inc }
  else st

/-- The structured-scan phase of the loop body (`scan.py:67-73`): when
`scan-dir` is set, invoke `handlers.scan` under `try`/`except`; an
exception is caught and logged as a warning, a success extends `versions`. -/
def scanPhase (env : Env) (cpv : String) (st : LoopState) (url : String) :
    LoopState :=
  if env.config.scanDir then
    match env.scanH cpv url with
    | Except.ok vs =>
        { st with scanCalls := st.scanCalls ++ [url],
                  versions := st.versions ++ vs }
    | Except.error msg =>
        { st with scanCalls := st.scanCalls ++ [url],
                  warns := st.warns ++ ["Handler failed: " ++ msg] }
  else st

/-- The brute-force phase of the loop body (`scan.py:78-83`): when the
configured intensity is non-zero, invoke `handlers.brute_force` (its
exceptions are wrapped by no `try` block and propagate), then re-check the
oneshot condition. -/
def brutePhase (env : Env) (cpv : String) (st : LoopState) (url : String) :
    Except ScanErr (LoopState × Bool) :=
  if 0 < env.config.bruteForce then
    match env.bruteH cpv url with
    | Except.error msg => Except.error (ScanErr.bruteRaised msg)
    | Except.ok vs =>
        if !(st.versions ++ vs).isEmpty && env.config.oneshot then
          Except.ok
            ({ st with bruteCalls := st.bruteCalls ++ [url],
                       versions := st.versions ++ vs }, true)
        else
          Except.ok
            ({ st with bruteCalls := st.bruteCalls ++ [url],
                       versions := st.versions ++ vs }, false)
  else
    if !st.versions.isEmpty && env.config.oneshot then
      Except.ok (st, true)
    else
      Except.ok (st, false)

/-- The rest of the loop body of `scan_upstream_urls` for one URL
(`scan.py:59-83`), after the progress report: skip URLs without a scheme
separator, run the structured scan phase, apply the oneshot check
(`scan.py:75-76`), then the brute-force phase with its own oneshot
re-check.  The returned boolean is the Python `break`. -/
def scanUrlBody (env : Env) (cpv : String) (st : LoopState) (url : String) :
    Except ScanErr (LoopState × Bool) :=
  if !strContainsSub url "://" then
    Except.ok (st, false)
  else
    if !(scanPhase env cpv st url).versions.isEmpty && env.config.oneshot then
      Except.ok (scanPhase env cpv st url, true)
    else
      brutePhase env cpv (scanPhase env cpv st url) url

/-- One full iteration of the inner loop for one URL (`scan.py:53-83`). -/
def scanOneUrl (env : Env) (cpv : String) (onProg : Bool) (inc : Nat)
    (st : LoopState) (url : String) : Except ScanErr (LoopState × Bool) :=
  scanUrlBody env cpv (reportProgress onProg inc st) url

/-- The inner loop over the URLs of one filename (`scan.py:53`); `break`
terminates this loop only. -/
def scanUrlList (env : Env) (cpv : String) (onProg : Bool) (inc : Nat)
    (st : LoopState) : List String → Except ScanErr LoopState
  | [] => Except.ok st
  | url :: rest =>
    match scanOneUrl env cpv onProg inc st url with
    | Except.error e => Except.error e
    | Except.ok (st', brk) =>
        if brk then Except.ok st'
        else scanUrlList env cpv onProg inc st' rest

/-- The outer loop over the filenames of the source-location map
(`scan.py:52`): a `break` in the inner loop does not terminate this one. -/
def scanFilenames (env : Env) (cpv : String) (onProg : Bool) (inc : Nat)
    (st : LoopState) : List (String × List String) → Except ScanErr LoopState
  | [] => Except.ok st
  | (_, us) :: rest =>
    match scanUrlList env cpv onProg inc st us with
    | Except.error e => Except.error e
    | Except.ok st' => scanFilenames env cpv onProg inc st' rest

/-- `sum([len(urls[fn]) for fn in urls])` (`scan.py:49`). -/
def numUrls (urls : List (String × List String)) : Nat :=
  (urls.map (fun p => p.2.length)).sum

/-- The observable outcome of `scan_upstream_urls`. -/
structure UrlsOut where
  result : List ResultEntry
  increments : List Nat
  scanCalls : List String
  bruteCalls : List String
  warns : List String
deriving DecidableEq, Repr

/-- `scan_upstream_urls` (`scan.py:45-92`).  `progress_increment` is the
Python 2 integer division `70 / num_urls`, which raises
`ZeroDivisionError` when the map declares no URL at all; after the loops,
`pkgsplit` is unpacked, the findings are filtered, and any unconsumed
progress budget is flushed. -/
def scan_upstream_urls (env : Env) (cpv : String)
    (urls : List (String × List String)) (onProg : Bool) :
    Except ScanErr UrlsOut :=
  if numUrls urls = 0 then Except.error ScanErr.zeroDivision
  else
    let inc := 70 / numUrls urls
    match scanFilenames env cpv onProg inc initState urls with
    | Except.error e => Except.error e
    | Except.ok st =>
      match env.pkgsplitFn cpv with
      | none => Except.error ScanErr.pkgsplitFailed
      | some (cp, _, _) =>
        let result := filter_versions env.version_blacklisted cp st.versions
        let incs :=
          if onProg && decide (0 < st.available) then st.incs ++ [st.available]
          else st.incs
        Except.ok
          { result := result, increments := incs, scanCalls := st.scanCalls,
            bruteCalls := st.bruteCalls, warns := st.warns }

/-- Stable insertion of one package into a sorted list, used to embed the
Python builtin `sorted(matches)` at `scan.py:137` under the collaborator's
order. -/
def insertSorted (le : Pkg → Pkg → Bool) (p : Pkg) : List Pkg → List Pkg
  | [] => [p]
  | q :: rest => if le p q then p :: q :: rest else q :: insertSorted le p rest

/-- `sorted(matches)` (`scan.py:137`), ascending under the collaborator's
order. -/
def sortPkgs (le : Pkg → Pkg → Bool) (ms : List Pkg) : List Pkg :=
  ms.foldr (insertSorted le) []

/-- The pop loop of `scan.py:138-141` viewed from the reversed sorted list:
`pkg = matches.pop(); while '9999' in pkg.version and len(matches): pkg =
matches.pop()`. -/
def selectLoop (pkg : Pkg) : List Pkg → Pkg
  | [] => pkg
  | p :: rest =>
      if strContainsSub pkg.version "9999" then selectLoop p rest else pkg

/-- Select the scan subject from the sorted match list (`scan.py:138-141`):
pop from the end while the popped package carries the `9999` marker and
candidates remain.  `none` models the `IndexError` that `pop()` on an empty
list would raise. -/
def selectPkg (sorted : List Pkg) : Option Pkg :=
  match sorted.reverse with
  | [] => none
  | p :: rest => some (selectLoop p rest)

/-- The identity metadata emitted at `scan.py:151-154` before the progress
report and the package-blacklist check. -/
def identityMetadata (env : Env) (pkg : Pkg) : List (String × String) :=
  [("datetime", env.now), ("cp", pkg.cp), ("cpv", pkg.cpv)]

/-- The display metadata emitted at `scan.py:165-182` when `quiet` is not
set (the overlay entry replaces the printed header in `format` mode, the
ebuild path is emitted only when present). -/
def displayMetadata (env : Env) (pkg : Pkg) : List (String × String) :=
  if env.config.quiet then []
  else
    (if env.config.format then [("overlay", pkg.repoName)] else [])
    ++ (match pkg.ebuildPath with
        | some p => [("ebuild", p)]
        | none => [])
    ++ [("repository", pkg.repoName), ("homepage", pkg.homepage),
        ("description", pkg.description)]

/-- The observable outcome of `scan_upstream`: `result = none` is Python
`return None`. -/
structure ScanOut where
  result : Option (List ResultEntry)
  increments : List Nat
  metadata : List (String × String)
  scanCalls : List String
  bruteCalls : List String
  warns : List String
deriving DecidableEq, Repr

/-- `scan_upstream` (`scan.py:113-221`): resolve the query, warn and return
`None` on no match; sort and pop to skip `9999` development builds (the
`if not pkg` guard is dead code, see `pyNot`); emit identity metadata,
report 10 progress, reject blacklisted packages; emit display metadata,
expand `SRC_URI` twice (a parse failure warns and returns `None`), pick the
mirror or plain expansion; run the URL dispatcher; report a final 10. -/
def scan_upstream (env : Env) (query : String) (onProg : Bool) :
    Except ScanErr ScanOut :=
  match env.resolve query with
  | [] =>
      Except.ok
        { result := none, increments := [], metadata := [], scanCalls := [],
          bruteCalls := [], warns := ["No package matching " ++ query] }
  | m :: ms =>
    match selectPkg (sortPkgs env.pkgLe (m :: ms)) with
    | none => Except.error ScanErr.popEmptyList
    | some pkg =>
      if pyNot pkg then
        Except.ok
          { result := none, increments := [], metadata := [],
            scanCalls := [], bruteCalls := [],
            warns := ["Package " ++ pkg.cp ++ " only have a dev version (9999)"] }
      else
        let md := identityMetadata env pkg
        let incs : List Nat := if onProg then [10] else []
        if pkg.cp ∈ env.blacklistPackages then
          Except.ok
            { result := none, increments := incs, metadata := md,
              scanCalls := [], bruteCalls := [],
              warns := ["Package " ++ pkg.cp ++ " is blacklisted"] }
        else
          let md := md ++ displayMetadata env pkg
          match env.alist pkg with
          | Except.error msg =>
              Except.ok
                { result := none, increments := incs, metadata := md,
                  scanCalls := [], bruteCalls := [],
                  warns := [msg, "Invalid SRC_URI for " ++ pkg.cpv] }
          | Except.ok a =>
            match env.aalist pkg with
            | Except.error msg =>
                Except.ok
                  { result := none, increments := incs, metadata := md,
                    scanCalls := [], bruteCalls := [],
                    warns := [msg, "Invalid SRC_URI for " ++ pkg.cpv] }
            | Except.ok aa =>
              let urls := if env.mirrorFeature then aa else a
              let md := md ++ [("scan_time", env.scanTime)]
              match scan_upstream_urls env pkg.cpv urls onProg with
              | Except.error e => Except.error e
              | Except.ok uo =>
                  Except.ok
                    { result := some uo.result,
                      increments := incs ++ uo.increments
                        ++ (if onProg then [10] else []),
                      metadata := md, scanCalls := uo.scanCalls,
                      bruteCalls := uo.bruteCalls, warns := uo.warns }

/-! ## Association-list lemmas -/

lemma lookupA_insertA_self {α : Type} (m : List (String × α)) (k : String) (v : α) :
    lookupA (insertA m k v) k = some v := by
  induction m with
  | nil => simp [insertA, lookupA]
  | cons p rest ih =>
    obtain ⟨k1, v1⟩ := p
    by_cases h : k1 = k
    · subst h; simp [insertA, lookupA]
    · simp [insertA, lookupA, h, ih]

lemma lookupA_insertA_ne {α : Type} (m : List (String × α)) (k key : String)
    (v : α) (h : key ≠ k) :
    lookupA (insertA m k v) key = lookupA m key := by
  induction m with
  | nil => simp [insertA, lookupA, Ne.symm h]
  | cons p rest ih =>
    obtain ⟨k1, v1⟩ := p
    by_cases h1 : k1 = k
    · subst h1; simp [insertA, lookupA, Ne.symm h]
    · simp [insertA, lookupA, h1, ih]

lemma lookupA_mem {α : Type} :
    ∀ {m : List (String × α)} {k : String} {v : α},
      lookupA m k = some v → (k, v) ∈ m := by
  intro m
  induction m with
  | nil => intro k v h; simp [lookupA] at h
  | cons p rest ih =>
    intro k v h
    obtain ⟨k1, v1⟩ := p
    by_cases h1 : k1 = k
    · subst h1
      simp [lookupA] at h
      simp [h]
    · simp [lookupA, h1] at h
      exact List.mem_cons_of_mem _ (ih h)

lemma lookupA_ne_none_of_mem {α : Type} :
    ∀ {m : List (String × α)} {k : String} {v : α},
      (k, v) ∈ m → lookupA m k ≠ none := by
  intro m
  induction m with
  | nil => intro k v h; simp at h
  | cons p rest ih =>
    intro k v h
    obtain ⟨k1, v1⟩ := p
    rcases List.mem_cons.mp h with h | h
    · obtain ⟨h1, h2⟩ := Prod.mk.injEq .. ▸ h
      subst h1
      simp [lookupA]
    · by_cases h1 : k1 = k
      · simp [lookupA, h1]
      · simpa [lookupA, h1] using ih h

lemma mem_insertA {α : Type} :
    ∀ {m : List (String × α)} {k : String} {v : α} {p : String × α},
      p ∈ insertA m k v → p ∈ m ∨ p = (k, v) := by
  intro m
  induction m with
  | nil => intro k v p h; simp [insertA] at h; simp [h]
  | cons q rest ih =>
    intro k v p h
    obtain ⟨k1, v1⟩ := q
    by_cases h1 : k1 = k
    · subst h1
      simp [insertA] at h
      rcases h with h | h
      · exact Or.inr (by simp [h])
      · exact Or.inl (List.mem_cons_of_mem _ h)
    · simp [insertA, h1] at h
      rcases h with h | h
      · exact Or.inl (by simp [h])
      · rcases ih h with h2 | h2
        · exact Or.inl (List.mem_cons_of_mem _ h2)
        · exact Or.inr h2

lemma keysA_insertA {α : Type} :
    ∀ (m : List (String × α)) (k : String) (v : α),
      keysA (insertA m k v) = keysA m ∨
      (keysA (insertA m k v) = keysA m ++ [k] ∧ k ∉ keysA m) := by
  intro m
  induction m with
  | nil => intro k v; right; simp [insertA, keysA]
  | cons q rest ih =>
    intro k v
    obtain ⟨k1, v1⟩ := q
    by_cases h1 : k1 = k
    · subst h1; left; simp [insertA, keysA]
    · rcases ih k v with h | ⟨h, hk⟩
      · left; simp [insertA, keysA, h1]
        simpa [keysA] using h
      · right
        constructor
        · simp [insertA, keysA, h1]
          simpa [keysA] using h
        · simp [keysA]
          exact ⟨Ne.symm h1, by simpa [keysA] using hk⟩

/-! ## The Version Filter: dedup, blacklist, last-wins -/

lemma filterStep_eq (bl : String → String → Bool) (cp : String)
    (m : List (String × List (String × PyVal))) (f : Finding) :
    filterStep bl cp m f = m ∨
    (bl cp f.version = false ∧
     filterStep bl cp m f = insertA m f.version (mkEntry f.url f.handler f.confidence)) := by
  unfold filterStep
  cases h : lookupA m f.version with
  | none =>
    simp only [h]
    by_cases hbl : bl cp f.version
    · simp [hbl]
    · simp only [Bool.not_eq_true] at hbl
      simp [hbl]
  | some entry =>
    simp only [h]
    by_cases hlt : f.url.length < entry.length
    · simp [hlt]
    · by_cases hbl : bl cp f.version
      · simp [hlt, hbl]
      · simp only [Bool.not_eq_true] at hbl
        simp [hlt, hbl]

lemma nodup_keysA_filterStep (bl : String → String → Bool) (cp : String)
    (m : List (String × List (String × PyVal))) (f : Finding)
    (h : (keysA m).Nodup) : (keysA (filterStep bl cp m f)).Nodup := by
  rcases filterStep_eq bl cp m f with he | ⟨_, he⟩
  · rw [he]; exact h
  · rw [he]
    rcases keysA_insertA m f.version (mkEntry f.url f.handler f.confidence) with
      hk | ⟨hk, hnot⟩
    · rw [hk]; exact h
    · rw [hk]
      simp [List.nodup_append, h, hnot]

lemma nodup_keysA_foldl (bl : String → String → Bool) (cp : String) :
    ∀ (vs : List Finding) (m : List (String × List (String × PyVal))),
      (keysA m).Nodup → (keysA (vs.foldl (filterStep bl cp) m)).Nodup := by
  intro vs
  induction vs with
  | nil => intro m h; simpa using h
  | cons f rest ih =>
    intro m h
    simp only [List.foldl_cons]
    exact ih _ (nodup_keysA_filterStep bl cp m f h)

/-- Claim C8: for every input list of findings, the output of
`filter_versions` contains at most one entry per distinct discovered
version string (the list of version components of the output has no
duplicate). -/
theorem C8_at_most_one_per_version (bl : String → String → Bool)
    (cp : String) (vs : List Finding) :
    ((filter_versions bl cp vs).map (fun e => e.2.2.1)).Nodup := by
  unfold filter_versions
  rw [List.map_map]
  exact nodup_keysA_foldl bl cp vs [] (by simp [keysA])

lemma lookupA_filterStep_none {bl : String → String → Bool} {cp v : String}
    (hbl : bl cp v = true)
    {m : List (String × List (String × PyVal))} {f : Finding}
    (h : lookupA m v = none) :
    lookupA (filterStep bl cp m f) v = none := by
  by_cases hv : f.version = v
  · subst hv
    unfold filterStep
    simp [h, hbl]
  · rcases filterStep_eq bl cp m f with he | ⟨_, he⟩
    · rw [he]; exact h
    · rw [he, lookupA_insertA_ne _ _ _ _ (fun hh => hv hh.symm)]
      exact h

lemma lookupA_foldl_none {bl : String → String → Bool} {cp v : String}
    (hbl : bl cp v = true) :
    ∀ (vs : List Finding) (m : List (String × List (String × PyVal))),
      lookupA m v = none →
      lookupA (vs.foldl (filterStep bl cp) m) v = none := by
  intro vs
  induction vs with
  | nil => intro m h; simpa using h
  | cons f rest ih =>
    intro m h
    simp only [List.foldl_cons]
    exact ih _ (lookupA_filterStep_none hbl h)

/-- Claim C7: a version blacklisted for the package never appears in the
output of `filter_versions`, regardless of how many input findings proposed
it. -/
theorem C7_blacklist_excluded (bl : String → String → Bool)
    (cp v : String) (vs : List Finding) (e : ResultEntry)
    (hbl : bl cp v = true) (he : e ∈ filter_versions bl cp vs) :
    e.2.2.1 ≠ v := by
  unfold filter_versions at he
  simp only [List.mem_map] at he
  obtain ⟨p, hp, hpe⟩ := he
  intro hv
  subst hpe
  simp only at hv
  have hnone : lookupA (vs.foldl (filterStep bl cp) []) v = none :=
    lookupA_foldl_none hbl vs [] rfl
  have hmem : (v, p.2) ∈ vs.foldl (filterStep bl cp) [] := by
    rw [← hv]
    exact hp
  exact lookupA_ne_none_of_mem hmem hnone

/-- The last finding of a list carrying a given version string (input
order), if any. -/
def lastWithVersion (v : String) (vs : List Finding) : Option Finding :=
  vs.foldl (fun a f => if f.version = v then some f else a) none

lemma length_mkEntry (u h : String) (c : Nat) : (mkEntry u h c).length = 3 := rfl

lemma entries3_filterStep {bl : String → String → Bool} {cp : String}
    {m : List (String × List (String × PyVal))} {f : Finding}
    (h3 : ∀ p ∈ m, (p.2 : List (String × PyVal)).length = 3) :
    ∀ p ∈ filterStep bl cp m f, (p.2 : List (String × PyVal)).length = 3 := by
  intro p hp
  rcases filterStep_eq bl cp m f with he | ⟨_, he⟩
  · rw [he] at hp; exact h3 p hp
  · rw [he] at hp
    rcases mem_insertA hp with hm | hm
    · exact h3 p hm
    · rw [hm]
      exact length_mkEntry _ _ _

lemma lookupA_foldl_lastWV {bl : String → String → Bool} {cp v : String}
    (hbl : bl cp v = false) :
    ∀ (vs : List Finding) (m : List (String × List (String × PyVal)))
      (oacc : Option Finding),
      (∀ p ∈ m, (p.2 : List (String × PyVal)).length = 3) →
      (∀ f ∈ vs, 3 ≤ f.url.length) →
      lookupA m v = oacc.map (fun g => mkEntry g.url g.handler g.confidence) →
      lookupA (vs.foldl (filterStep bl cp) m) v
        = (vs.foldl (fun a f => if f.version = v then some f else a) oacc).map
            (fun g => mkEntry g.url g.handler g.confidence) := by
  intro vs
  induction vs with
  | nil => intro m oacc h3 hurl hm; simpa using hm
  | cons f rest ih =>
    intro m oacc h3 hurl hm
    simp only [List.foldl_cons]
    by_cases hv : f.version = v
    · have hlen : 3 ≤ f.url.length := hurl f (by simp)
      have hstep : filterStep bl cp m f
          = insertA m f.version (mkEntry f.url f.handler f.confidence) := by
        unfold filterStep
        rw [hv, hm]
        cases oacc with
        | none =>
          simp [hv, hbl]
        | some g =>
          have : ¬ f.url.length < (mkEntry g.url g.handler g.confidence).length := by
            rw [length_mkEntry]; omega
          simp [hv, hbl, this]
      rw [hstep, hv]
      simp only [if_pos rfl]
      refine ih _ (some f) ?_ (fun x hx => hurl x (by simp [hx])) ?_
      · intro p hp
        rcases mem_insertA hp with hmm | hmm
        · exact h3 p hmm
        · rw [hmm]; exact length_mkEntry _ _ _
      · rw [lookupA_insertA_self]
        rfl
    · have hrhs : (if f.version = v then some f else oacc) = oacc := by simp [hv]
      rw [hrhs]
      rcases filterStep_eq bl cp m f with he | ⟨_, he⟩
      · rw [he]
        exact ih _ _ h3 (fun x hx => hurl x (by simp [hx])) hm
      · rw [he]
        refine ih _ _ ?_ (fun x hx => hurl x (by simp [hx])) ?_
        · intro p hp
          rcases mem_insertA hp with hmm | hmm
          · exact h3 p hmm
          · rw [hmm]; exact length_mkEntry _ _ _
        · rw [lookupA_insertA_ne _ _ _ _ (fun hh => hv hh.symm)]
          exact hm

/-- Claim C9: when every URL in the input has length at least 3, the entry
kept by `filter_versions` for a non-blacklisted version is the last finding
with that version in input order (a later finding replaces an earlier one
with the same version, because the stored-entry comparison at `scan.py:25`
measures the length of the three-field replacement dict, not of the stored
URL). -/
theorem C9_last_finding_kept (bl : String → String → Bool)
    (cp v : String) (vs : List Finding) (g : Finding)
    (hurl : ∀ f ∈ vs, 3 ≤ f.url.length) (hbl : bl cp v = false)
    (hlast : lastWithVersion v vs = some g) :
    (cp, g.url, v, g.handler, g.confidence) ∈ filter_versions bl cp vs := by
  have h := lookupA_foldl_lastWV hbl vs [] none (by simp) hurl (by simp [lookupA])
  rw [lastWithVersion] at hlast
  rw [hlast] at h
  have hmem := lookupA_mem h
  unfold filter_versions
  refine List.mem_map.mpr ⟨(v, mkEntry g.url g.handler g.confidence), hmem, ?_⟩
  rfl

/-! ## Progress-budget conservation -/

lemma scanPhase_state (env : Env) (cpv : String) (st : LoopState) (u : String) :
    (scanPhase env cpv st u).available = st.available ∧
    (scanPhase env cpv st u).incs = st.incs := by
  unfold scanPhase
  split
  · split <;> exact ⟨rfl, rfl⟩
  · exact ⟨rfl, rfl⟩

lemma brutePhase_preserves {env : Env} {cpv : String} {st st' : LoopState}
    {u : String} {b : Bool}
    (h : brutePhase env cpv st u = Except.ok (st', b)) :
    st'.available = st.available ∧ st'.incs = st.incs := by
  unfold brutePhase at h
  split at h
  · split at h
    · simp at h
    · split at h <;>
        (simp only [Except.ok.injEq, Prod.mk.injEq] at h;
         obtain ⟨h1, h2⟩ := h; subst h1; exact ⟨rfl, rfl⟩)
  · split at h <;>
      (simp only [Except.ok.injEq, Prod.mk.injEq] at h;
       obtain ⟨h1, h2⟩ := h; subst h1; exact ⟨rfl, rfl⟩)

lemma scanUrlBody_preserves {env : Env} {cpv : String} {st st' : LoopState}
    {u : String} {b : Bool}
    (h : scanUrlBody env cpv st u = Except.ok (st', b)) :
    st'.available = st.available ∧ st'.incs = st.incs := by
  unfold scanUrlBody at h
  split at h
  · simp only [Except.ok.injEq, Prod.mk.injEq] at h
    obtain ⟨h1, h2⟩ := h; subst h1; exact ⟨rfl, rfl⟩
  · split at h
    · simp only [Except.ok.injEq, Prod.mk.injEq] at h
      obtain ⟨h1, h2⟩ := h; subst h1
      exact scanPhase_state env cpv st u
    · have hb := brutePhase_preserves h
      have hs := scanPhase_state env cpv st u
      exact ⟨hb.1.trans hs.1, hb.2.trans hs.2⟩

lemma reportProgress_cases (onProg : Bool) (inc : Nat) (st : LoopState) :
    reportProgress onProg inc st = st ∨
    (0 < st.available ∧
     reportProgress onProg inc st
       = { st with incs := st.incs ++ [inc], available := st.available - inc }) := by
  unfold reportProgress
  split
  · rename_i hcond
    right
    refine ⟨?_, rfl⟩
    exact of_decide_eq_true ((Bool.and_eq_true _ _).mp hcond).2
  · exact Or.inl rfl

lemma scanOneUrl_inv {env : Env} {cpv u : String} {inc : Nat}
    {st st' : LoopState} {b : Bool} {k : Nat}
    (h : scanOneUrl env cpv true inc st u = Except.ok (st', b))
    (hs : st.incs.sum = k * inc) (ha : st.available = 70 - k * inc) :
    ∃ kk, kk ≤ k + 1 ∧ st'.incs.sum = kk * inc ∧
      st'.available = 70 - kk * inc := by
  unfold scanOneUrl at h
  have hp := scanUrlBody_preserves h
  rcases reportProgress_cases true inc st with hr | ⟨hpos, hr⟩
  · rw [hr] at hp
    refine ⟨k, Nat.le_succ k, ?_, ?_⟩
    · rw [hp.2]; exact hs
    · rw [hp.1]; exact ha
  · rw [hr] at hp
    dsimp only at hp
    refine ⟨k + 1, le_refl _, ?_, ?_⟩
    · rw [hp.2, List.sum_append, hs]
      simp [Nat.succ_mul]
    · rw [hp.1, ha, Nat.sub_sub, Nat.succ_mul]

lemma scanUrlList_inv {env : Env} {cpv : String} {inc : Nat} :
    ∀ (us : List String) (st : LoopState) (k : Nat) {st'' : LoopState},
      st.incs.sum = k * inc → st.available = 70 - k * inc →
      scanUrlList env cpv true inc st us = Except.ok st'' →
      ∃ kk, kk ≤ k + us.length ∧ st''.incs.sum = kk * inc ∧
        st''.available = 70 - kk * inc := by
  intro us
  induction us with
  | nil =>
    intro st k st'' hs ha h
    simp only [scanUrlList, Except.ok.injEq] at h
    subst h
    exact ⟨k, by omega, hs, ha⟩
  | cons u rest ih =>
    intro st k st'' hs ha h
    unfold scanUrlList at h
    split at h
    · simp at h
    · rename_i st1 brk heq
      obtain ⟨k1, hk1, hs1, ha1⟩ := scanOneUrl_inv heq hs ha
      split at h
      · simp only [Except.ok.injEq] at h
        subst h
        exact ⟨k1, by simp; omega, hs1, ha1⟩
      · obtain ⟨kk, hkk, hs2, ha2⟩ := ih st1 k1 hs1 ha1 h
        exact ⟨kk, by simp; omega, hs2, ha2⟩

lemma scanFilenames_inv {env : Env} {cpv : String} {inc : Nat} :
    ∀ (fns : List (String × List String)) (st : LoopState) (k : Nat)
      {st'' : LoopState},
      st.incs.sum = k * inc → st.available = 70 - k * inc →
      scanFilenames env cpv true inc st fns = Except.ok st'' →
      ∃ kk, kk ≤ k + numUrls fns ∧ st''.incs.sum = kk * inc ∧
        st''.available = 70 - kk * inc := by
  intro fns
  induction fns with
  | nil =>
    intro st k st'' hs ha h
    simp only [scanFilenames, Except.ok.injEq] at h
    subst h
    exact ⟨k, by omega, hs, ha⟩
  | cons p rest ih =>
    intro st k st'' hs ha h
    obtain ⟨fn, us⟩ := p
    unfold scanFilenames at h
    split at h
    · simp at h
    · rename_i st1 heq
      obtain ⟨k1, hk1, hs1, ha1⟩ := scanUrlList_inv us st k hs ha heq
      obtain ⟨kk, hkk, hs2, ha2⟩ := ih st1 k1 hs1 ha1 h
      refine ⟨kk, ?_, hs2, ha2⟩
      have : numUrls ((fn, us) :: rest) = us.length + numUrls rest := by
        simp [numUrls]
      omega

/-- When `scan_upstream_urls` completes with a progress callback supplied,
the increments it reported (including the final flush) sum to exactly its
70-point budget. -/
lemma scan_upstream_urls_sum {env : Env} {cpv : String}
    {urls : List (String × List String)} {uo : UrlsOut}
    (h : scan_upstream_urls env cpv urls true = Except.ok uo) :
    uo.increments.sum = 70 := by
  unfold scan_upstream_urls at h
  split at h
  · simp at h
  · rename_i hnz
    simp only [] at h
    split at h
    · simp at h
    · rename_i st hsf
      split at h
      · simp at h
      · rename_i cp v r hps
        simp only [Except.ok.injEq] at h
        subst h
        obtain ⟨kk, hkk, hsum, hav⟩ :=
          scanFilenames_inv urls initState 0 (by simp [initState])
            (by simp [initState]) hsf
        have hmul : kk * (70 / numUrls urls) ≤ 70 := by
          calc kk * (70 / numUrls urls)
              ≤ numUrls urls * (70 / numUrls urls) :=
                Nat.mul_le_mul_right _ (by omega)
            _ = 70 / numUrls urls * numUrls urls := Nat.mul_comm _ _
            _ ≤ 70 := Nat.div_mul_le_self 70 (numUrls urls)
        dsimp only
        split
        · rename_i hflush
          rw [List.sum_append, hsum]
          simp only [List.sum_cons, List.sum_nil]
          omega
        · rename_i hflush
          have h0 : st.available = 0 := by
            rcases Nat.eq_zero_or_pos st.available with h0 | hpos
            · exact h0
            · exact absurd (by simp [hpos]) hflush
          rw [hsum]
          omega

/-- Claim C1 (amended): for every invocation of `scan_upstream` that runs
to completion with a result (not aborted) and a progress callback
supplied, the increments passed to the callback sum to exactly 90
(10 resolve + 70 per-URL phase including the flush + 10 finalize), not
100. -/
theorem C1_progress_sum_amended (env : Env) (q : String) (o : ScanOut)
    (r : List ResultEntry)
    (h : scan_upstream env q true = Except.ok o) (hr : o.result = some r) :
    o.increments.sum = 90 := by
  unfold scan_upstream at h
  split at h
  · simp only [Except.ok.injEq] at h
    subst h
    simp at hr
  · split at h
    · simp at h
    · rename_i pkg hsel
      simp only [pyNot, Bool.false_eq_true, if_false] at h
      split at h
      · simp only [Except.ok.injEq] at h
        subst h
        simp at hr
      · split at h
        · simp only [Except.ok.injEq] at h
          subst h
          simp at hr
        · split at h
          · simp only [Except.ok.injEq] at h
            subst h
            simp at hr
          · split at h
            · simp at h
            · rename_i uo hsu
              simp only [Except.ok.injEq] at h
              subst h
              simp only [if_true]
              rw [List.sum_append, List.sum_append]
              rw [scan_upstream_urls_sum hsu]
              simp

/-! ## Oneshot early exit, handler fault isolation, blacklist short-cut -/

/-- Claim C2 (amended): once one URL's scan has produced a finding and the
oneshot break fires, it terminates only the inner per-filename loop: the
remaining URLs of the current filename are not visited, but dispatch
continues with the subsequent filenames of the map, whose URLs may still
have handlers invoked. -/
theorem C2_oneshot_amended (env : Env) (cpv : String) (onP : Bool) (inc : Nat)
    (st st' : LoopState) (u fn : String) (us : List String)
    (rest : List (String × List String))
    (h : scanOneUrl env cpv onP inc st u = Except.ok (st', true)) :
    scanUrlList env cpv onP inc st (u :: us) = Except.ok st' ∧
    scanFilenames env cpv onP inc st ((fn, u :: us) :: rest)
      = scanFilenames env cpv onP inc st' rest := by
  have h1 : scanUrlList env cpv onP inc st (u :: us) = Except.ok st' := by
    simp only [scanUrlList, h, if_true]
  refine ⟨h1, ?_⟩
  simp only [scanFilenames, h1]

/-- Claim C6: an exception raised by a handler while scanning URL `A` is
caught inside the dispatch loop, recorded as a non-fatal warning, and
iteration continues: the finding returned for the later URL `B` appears in
the final result. -/
theorem C6_handler_fault_isolated (env : Env)
    (cpv fn A B cp v r msg : String) (f : Finding) (onP : Bool)
    (hA : strContainsSub A "://" = true) (hB : strContainsSub B "://" = true)
    (hdir : env.config.scanDir = true) (hbf : env.config.bruteForce = 0)
    (hsA : env.scanH cpv A = Except.error msg)
    (hsB : env.scanH cpv B = Except.ok [f])
    (hps : env.pkgsplitFn cpv = some (cp, v, r))
    (hbl : env.version_blacklisted cp f.version = false) :
    scan_upstream_urls env cpv [(fn, [A, B])] onP
      = Except.ok
          { result := [(cp, f.url, f.version, f.handler, f.confidence)],
            increments := if onP then [35, 35] else [],
            scanCalls := [A, B],
            bruteCalls := [],
            warns := ["Handler failed: " ++ msg] } := by
  cases onP <;> cases hone : env.config.oneshot <;>
    simp [scan_upstream_urls, numUrls, scanFilenames, scanUrlList, scanOneUrl,
      reportProgress, scanUrlBody, scanPhase, brutePhase, initState,
      hA, hB, hdir, hbf, hsA, hsB, hps, hbl, hone,
      filter_versions, filterStep, lookupA, insertA, mkEntry,
      entryUrl, entryHandler, entryConf]

/-- Claim C10: when the resolved package is on the static package
blacklist, `scan_upstream` returns null only after one progress increment
of 10 has been reported and the identity metadata (datetime, cp, cpv) has
been emitted: the cumulative progress of a blacklisted scan is exactly 10,
not 0. -/
theorem C10_blacklisted_progress_ten (env : Env) (q : String)
    (m pkg : Pkg) (ms : List Pkg)
    (hres : env.resolve q = m :: ms)
    (hsel : selectPkg (sortPkgs env.pkgLe (m :: ms)) = some pkg)
    (hbl : pkg.cp ∈ env.blacklistPackages) :
    scan_upstream env q true
      = Except.ok
          { result := none, increments := [10],
            metadata := identityMetadata env pkg,
            scanCalls := [], bruteCalls := [],
            warns := ["Package " ++ pkg.cp ++ " is blacklisted"] } := by
  unfold scan_upstream
  simp only [hres, hsel, pyNot, Bool.false_eq_true, if_false]
  simp [hbl]

/-! ## Concrete environments for witnesses and failing-input evaluations -/

/-- A version blacklist that excludes nothing. -/
def blNone : String → String → Bool := fun _ _ => false

/-- A concrete handler finding. -/
def fA : Finding :=
  { url := "http://a/foo-1.2.tar.gz", version := "1.2",
    handler := "generic", confidence := 80 }

/-- A second concrete handler finding. -/
def fB : Finding :=
  { url := "http://b/foo-1.3.tar.gz", version := "1.3",
    handler := "generic", confidence := 70 }

/-- A baseline configuration: quiet, no machine format, no oneshot,
structured scanning on, brute force off. -/
def cfgBase : Config :=
  { quiet := true, format := false, oneshot := false, scanDir := true,
    bruteForce := 0 }

/-- A concrete stable package. -/
def pkgW : Pkg :=
  { cp := "net-misc/foo", cpv := "net-misc/foo-1.0", version := "1.0",
    repoName := "gentoo", ebuildPath := none,
    homepage := "http://foo.example.com", description := "Foo" }

/-- A baseline environment: one match, one declared URL, handlers find
nothing, nothing blacklisted. -/
def envBase : Env :=
  { config := cfgBase
    scanH := fun _ _ => Except.ok []
    bruteH := fun _ _ => Except.ok []
    version_blacklisted := blNone
    pkgsplitFn := fun _ => some ("net-misc/foo", "1.0", "r0")
    resolve := fun _ => [pkgW]
    pkgLe := fun _ _ => true
    blacklistPackages := []
    alist := fun _ => Except.ok [("foo-1.0.tar.gz", ["http://a/foo-1.0.tar.gz"])]
    aalist := fun _ => Except.ok []
    mirrorFeature := false
    now := "T0"
    scanTime := "0" }

/-- The baseline environment with a handler that returns one finding. -/
def envC1 : Env := { envBase with scanH := fun _ _ => Except.ok [fA] }

/-- The full outcome of `scan_upstream envC1 "foo" true`. -/
def outC1 : ScanOut :=
  { result := some [("net-misc/foo", "http://a/foo-1.2.tar.gz", "1.2",
      "generic", 80)]
    increments := [10, 70, 10]
    metadata := [("datetime", "T0"), ("cp", "net-misc/foo"),
      ("cpv", "net-misc/foo-1.0"), ("scan_time", "0")]
    scanCalls := ["http://a/foo-1.0.tar.gz"]
    bruteCalls := []
    warns := [] }

/-- Claim C1 (counterexample): a full `scan_upstream` run that completes
with a result and a progress callback reports increments summing to 90,
not 100 — the phase budgets in the code are 10 + 70 + 10. -/
theorem C1_counterexample :
    scan_upstream envC1 "foo" true = Except.ok outC1 ∧
    outC1.result.isSome = true ∧
    outC1.increments.sum ≠ 100 :=
  ⟨rfl, rfl, by decide⟩

/-- Witness: the amended progress-conservation theorem applied to the
concrete completed run. -/
theorem C1_progress_sum_witness : outC1.increments.sum = 90 :=
  C1_progress_sum_amended envC1 "foo" outC1
    [("net-misc/foo", "http://a/foo-1.2.tar.gz", "1.2", "generic", 80)]
    rfl rfl

/-- The oneshot environment whose handler finds something on both the
first filename's URL and the second filename's URL. -/
def envC2 : Env :=
  { envBase with
    config := { cfgBase with oneshot := true }
    scanH := fun _ u =>
      if u = "http://a/foo-1.0.tar.gz" then Except.ok [fA]
      else if u = "http://b/foo-1.0.tar.gz" then Except.ok [fB]
      else Except.ok [] }

/-- A source-location map with two filenames of one URL each. -/
def urlsC2 : List (String × List String) :=
  [("fa", ["http://a/foo-1.0.tar.gz"]), ("fb", ["http://b/foo-1.0.tar.gz"])]

/-- Claim C2 (counterexample): with oneshot enabled, the first filename's
URL produces a non-empty finding, yet the handler registry is still
invoked for the subsequent filename's URL — the break terminates only the
inner loop. -/
theorem C2_counterexample :
    envC2.config.oneshot = true ∧
    envC2.scanH "net-misc/foo-1.0" "http://a/foo-1.0.tar.gz" = Except.ok [fA] ∧
    (scan_upstream_urls envC2 "net-misc/foo-1.0" urlsC2 false).map UrlsOut.scanCalls
      = Except.ok ["http://a/foo-1.0.tar.gz", "http://b/foo-1.0.tar.gz"] :=
  ⟨rfl, rfl, rfl⟩

/-- The loop state after the oneshot break on the first URL of `envC2`. -/
def stC2 : LoopState :=
  { versions := [fA], available := 70, incs := [],
    scanCalls := ["http://a/foo-1.0.tar.gz"], bruteCalls := [], warns := [] }

/-- Witness: the amended oneshot theorem applied to a concrete breaking
URL — the rest of the filename is skipped and dispatch continues with the
next filename. -/
theorem C2_oneshot_witness :
    scanUrlList envC2 "net-misc/foo-1.0" false 35 initState
      ["http://a/foo-1.0.tar.gz", "http://zzz"] = Except.ok stC2 ∧
    scanFilenames envC2 "net-misc/foo-1.0" false 35 initState
      [("fa", ["http://a/foo-1.0.tar.gz", "http://zzz"]),
       ("fb", ["http://b/foo-1.0.tar.gz"])]
      = scanFilenames envC2 "net-misc/foo-1.0" false 35 stC2
          [("fb", ["http://b/foo-1.0.tar.gz"])] :=
  C2_oneshot_amended envC2 "net-misc/foo-1.0" false 35 initState stC2
    "http://a/foo-1.0.tar.gz" "fa" ["http://zzz"]
    [("fb", ["http://b/foo-1.0.tar.gz"])] rfl

/-- Claim C3 (failing input evaluated): two findings with the same version,
the first URL strictly longer; `filter_versions` keeps the second, shorter
URL, because the comparison at `scan.py:25` is against the length of the
stored three-field dict (3), not the stored URL. -/
theorem C3_shorter_url_wins_eval :
    "u-2".length < "http://example.com/distfiles/foo-1.0.tar.gz".length ∧
    filter_versions blNone "net-misc/foo"
      [{ url := "http://example.com/distfiles/foo-1.0.tar.gz",
         version := "1.0", handler := "generic", confidence := 50 },
       { url := "u-2", version := "1.0", handler := "other", confidence := 40 }]
      = [("net-misc/foo", "u-2", "1.0", "other", 40)] :=
  ⟨by decide, rfl⟩

/-- Claim C4 (failing input evaluated): a source-location map declaring
zero URLs in total makes `scan_upstream_urls` raise `ZeroDivisionError`
at the `70 / num_urls` computation, instead of returning an empty
result. -/
theorem C4_zero_urls_eval :
    scan_upstream_urls envBase "net-misc/foo-1.0" [("foo-1.0.tar.gz", [])] false
      = Except.error ScanErr.zeroDivision :=
  rfl

/-- A package whose only version is the perpetual-development marker. -/
def pkgDev : Pkg :=
  { cp := "dev/pkg", cpv := "dev/pkg-9999", version := "9999",
    repoName := "gentoo", ebuildPath := none, homepage := "h",
    description := "d" }

/-- An environment whose query matches only the development package. -/
def envC5 : Env :=
  { envBase with
    resolve := fun _ => [pkgDev]
    pkgsplitFn := fun _ => some ("dev/pkg", "9999", "r0")
    alist := fun _ => Except.ok [("p.tar.gz", ["http://x/p-1.0.tar.gz"])] }

/-- The outcome of scanning the dev-only package. -/
def outC5 : ScanOut :=
  { result := some []
    increments := []
    metadata := [("datetime", "T0"), ("cp", "dev/pkg"),
      ("cpv", "dev/pkg-9999"), ("scan_time", "0")]
    scanCalls := ["http://x/p-1.0.tar.gz"]
    bruteCalls := []
    warns := [] }

/-- Claim C5 (failing input evaluated): every match carries the `9999`
marker, yet `scan_upstream` does not warn and return null — it proceeds to
scan the development package's URL and returns a (non-null) result,
because the `if not pkg` guard at `scan.py:143` is never true for a
package object. -/
theorem C5_dev_only_scanned_eval :
    strContainsSub pkgDev.version "9999" = true ∧
    envC5.resolve "dev/pkg" = [pkgDev] ∧
    scan_upstream envC5 "dev/pkg" false = Except.ok outC5 ∧
    outC5.result = some [] ∧
    outC5.scanCalls = ["http://x/p-1.0.tar.gz"] :=
  ⟨rfl, rfl, rfl, rfl, rfl⟩

/-- An environment whose handler raises on URL `A` and succeeds on `B`. -/
def envC6 : Env :=
  { envBase with
    scanH := fun _ u =>
      if u = "http://a/x.tar.gz" then Except.error "boom"
      else if u = "http://b/y.tar.gz" then Except.ok [fB]
      else Except.ok [] }

/-- Witness: handler fault isolation applied to a concrete pair of URLs —
the failure on `A` becomes a warning and `B`'s finding is the result. -/
theorem C6_handler_fault_witness :
    scan_upstream_urls envC6 "net-misc/foo-1.0"
      [("f", ["http://a/x.tar.gz", "http://b/y.tar.gz"])] true
      = Except.ok
          { result := [("net-misc/foo", "http://b/foo-1.3.tar.gz", "1.3",
              "generic", 70)],
            increments := [35, 35],
            scanCalls := ["http://a/x.tar.gz", "http://b/y.tar.gz"],
            bruteCalls := [],
            warns := ["Handler failed: boom"] } :=
  C6_handler_fault_isolated envC6 "net-misc/foo-1.0" "f"
    "http://a/x.tar.gz" "http://b/y.tar.gz" "net-misc/foo" "1.0" "r0"
    "boom" fB true rfl rfl rfl rfl rfl rfl rfl rfl

/-- A version blacklist rejecting exactly version 2.0. -/
def bl7 : String → String → Bool := fun _ w => w == "2.0"

/-- Findings proposing the blacklisted version and a clean one. -/
def vs7 : List Finding :=
  [{ url := "http://a/x-2.0.tar.gz", version := "2.0", handler := "h",
     confidence := 50 },
   { url := "http://b/x-1.0.tar.gz", version := "1.0", handler := "h",
     confidence := 40 }]

/-- Witness: blacklist exclusion applied to the concrete entry that
survives filtering. -/
theorem C7_blacklist_witness :
    (("net-misc/foo", "http://b/x-1.0.tar.gz", "1.0", "h", 40) :
      ResultEntry).2.2.1 ≠ "2.0" :=
  C7_blacklist_excluded bl7 "net-misc/foo" "2.0" vs7
    ("net-misc/foo", "http://b/x-1.0.tar.gz", "1.0", "h", 40)
    rfl (by decide)

/-- Findings with a long first URL and a short later URL for the same
version. -/
def vs9 : List Finding :=
  [{ url := "http://long.example.com/a-2.0.tar.gz", version := "2.0",
     handler := "h1", confidence := 50 },
   { url := "u-9", version := "2.0", handler := "h2", confidence := 40 }]

/-- Witness: last-finding-wins applied to the concrete list — the later,
shorter-URL finding is the one kept. -/
theorem C9_last_finding_witness :
    ("net-misc/foo", "u-9", "2.0", "h2", 40)
      ∈ filter_versions blNone "net-misc/foo" vs9 :=
  C9_last_finding_kept blNone "net-misc/foo" "2.0" vs9
    { url := "u-9", version := "2.0", handler := "h2", confidence := 40 }
    (by decide) rfl rfl

/-- The baseline environment with the matched package blacklisted. -/
def envC10 : Env := { envBase with blacklistPackages := ["net-misc/foo"] }

/-- Witness: the blacklist short-cut applied to the concrete blacklisted
package — exactly one increment of 10 and the identity metadata. -/
theorem C10_blacklisted_witness :
    scan_upstream envC10 "foo" true
      = Except.ok
          { result := none, increments := [10],
            metadata := identityMetadata envC10 pkgW,
            scanCalls := [], bruteCalls := [],
            warns := ["Package net-misc/foo is blacklisted"] } :=
  C10_blacklisted_progress_ten envC10 "foo" pkgW pkgW [] rfl rfl (by decide)

end Euscan
